import Mathlib

/-!
Verification of the `atorrlinker` deduplication core (`src/undup.rs`).

The development shallowly embeds the content-hashing traversal
(`find_and_hash_files`), the SHA-256 file hasher (`hash_file`) and the
cross-tree matching engine (`find_matching_files`) over an explicit
filesystem model, and proves the specified properties of the emitted
`MatchingFile` values, the error behaviour and the hashing.
-/

namespace Undup

/-! Section: SHA-256 (semantics of the external `sha2` crate used by `hash_file`) -/

/-- Truncation to a 32-bit word. -/
def w32 (x : Nat) : Nat := x % 4294967296

/-- Right rotation of a 32-bit word by `n` bits. -/
def rotr (n x : Nat) : Nat := w32 ((x >>> n) ||| (x <<< (32 - n)))

def bigSigma0 (x : Nat) : Nat := (rotr 2 x) ^^^ (rotr 13 x) ^^^ (rotr 22 x)

def bigSigma1 (x : Nat) : Nat := (rotr 6 x) ^^^ (rotr 11 x) ^^^ (rotr 25 x)

def smallSigma0 (x : Nat) : Nat := (rotr 7 x) ^^^ (rotr 18 x) ^^^ (x >>> 3)

def smallSigma1 (x : Nat) : Nat := (rotr 17 x) ^^^ (rotr 19 x) ^^^ (x >>> 10)

def chFn (x y z : Nat) : Nat := (x &&& y) ^^^ ((x ^^^ 4294967295) &&& z)

def majFn (x y z : Nat) : Nat := (x &&& y) ^^^ (x &&& z) ^^^ (y &&& z)

/-- The 64 SHA-256 round constants (FIPS 180-4, in decimal). -/
def sha256K : List Nat :=
  [1116352408, 1899447441, 3049323471, 3921009573, 961987163, 1508970993,
   2453635748, 2870763221, 3624381080, 310598401, 607225278, 1426881987,
   1925078388, 2162078206, 2614888103, 3248222580, 3835390401, 4022224774,
   264347078, 604807628, 770255983, 1249150122, 1555081692, 1996064986,
   2554220882, 2821834349, 2952996808, 3210313671, 3336571891, 3584528711,
   113926993, 338241895, 666307205, 773529912, 1294757372, 1396182291,
   1695183700, 1986661051, 2177026350, 2456956037, 2730485921, 2820302411,
   3259730800, 3345764771, 3516065817, 3600352804, 4094571909, 275423344,
   430227734, 506948616, 659060556, 883997877, 958139571, 1322822218,
   1537002063, 1747873779, 1955562222, 2024104815, 2227730452, 2361852424,
   2428436474, 2756734187, 3204031479, 3329325298]

/-- The initial SHA-256 hash state (FIPS 180-4, in decimal). -/
def sha256H0 : List Nat :=
  [1779033703, 3144134277, 1013904242, 2773480762,
   1359893119, 2600822924, 528734635, 1541459225]

/-- Big-endian 8-byte encoding of a number (used for the length suffix). -/
def be64 (n : Nat) : List Nat :=
  [w32 (n >>> 56) % 256, (n >>> 48) % 256, (n >>> 40) % 256, (n >>> 32) % 256,
   (n >>> 24) % 256, (n >>> 16) % 256, (n >>> 8) % 256, n % 256]

/-- Big-endian 4-byte decomposition of a 32-bit word. -/
def be32 (n : Nat) : List Nat :=
  [(n >>> 24) % 256, (n >>> 16) % 256, (n >>> 8) % 256, n % 256]

/-- SHA-256 padding: append `0x80`, zeros up to 56 mod 64, then the bit length. -/
def sha256Pad (msg : List Nat) : List Nat :=
  msg ++ [0x80] ++ List.replicate ((119 - msg.length % 64) % 64) 0 ++ be64 (8 * msg.length)

/-- Split a byte sequence into 64-byte blocks (structural recursion on a
length fuel so that the kernel can evaluate it). -/
def blocks64Aux : Nat → List Nat → List (List Nat)
  | _, [] => []
  | 0, l => [l]
  | n + 1, x :: xs => ((x :: xs).take 64) :: blocks64Aux n ((x :: xs).drop 64)

/-- Split a byte sequence into 64-byte blocks. -/
def blocks64 (l : List Nat) : List (List Nat) := blocks64Aux l.length l

/-- Combine consecutive groups of 4 bytes into big-endian 32-bit words. -/
def toWords (l : List Nat) : List Nat :=
  match l with
  | a :: b :: c :: d :: rest => (a <<< 24 ||| b <<< 16 ||| c <<< 8 ||| d) :: toWords rest
  | _ => []

/-- One extension step of the SHA-256 message schedule. -/
def schedStep (ws : List Nat) : List Nat :=
  let n := ws.length
  ws ++ [w32 (smallSigma1 (ws.getD (n - 2) 0) + ws.getD (n - 7) 0 +
              smallSigma0 (ws.getD (n - 15) 0) + ws.getD (n - 16) 0)]

/-- The full 64-word message schedule from the 16 block words. -/
def fullSched (ws : List Nat) : List Nat :=
  (List.range 48).foldl (fun acc _ => schedStep acc) ws

/-- One SHA-256 compression round on the 8-word working state. -/
def compressStep (st : List Nat) (kw : Nat × Nat) : List Nat :=
  match st with
  | [a, b, c, d, e, f, g, h] =>
    let t1 := w32 (h + bigSigma1 e + chFn e f g + kw.1 + kw.2)
    let t2 := w32 (bigSigma0 a + majFn a b c)
    [w32 (t1 + t2), a, b, c, w32 (d + t1), e, f, g]
  | _ => st

/-- Process one 64-byte block, updating the 8-word hash state. -/
def processBlock (H : List Nat) (block : List Nat) : List Nat :=
  let st := (sha256K.zip (fullSched (toWords block))).foldl compressStep H
  (H.zip st).map (fun p => w32 (p.1 + p.2))

/-- SHA-256 digest (32 bytes) of a byte sequence. -/
def sha256 (msg : List Nat) : List Nat :=
  (((blocks64 (sha256Pad msg)).foldl processBlock sha256H0).map be32).flatten

/-- Uppercase hexadecimal digit, as printed by Rust `{:X}`. -/
def hexDigit (n : Nat) : Char :=
  if n < 10 then Char.ofNat (48 + n) else Char.ofNat (55 + n)

/-- Two-digit uppercase hexadecimal rendering of one byte. -/
def byteHex (b : Nat) : List Char := [hexDigit (b / 16), hexDigit (b % 16)]

/-- Uppercase hexadecimal string of a byte sequence (Rust `format!("{:X}", digest)`). -/
def toHexUpper (bs : List Nat) : String := String.mk (bs.map byteHex).flatten

/-! Section: Data model (`FileType`, `DiscoveredFiles`, `MatchingFile` from `undup.rs`) -/

/-- A path. Rust `PathBuf` values are opaque identifiers here. -/
abbrev Path := String

/-- A content hash, kept as the hex string the Rust code uses (`type Hash = String`). -/
abbrev Hash := String

/-- `enum FileType { File(PathBuf), Symlink { source, target } }`. -/
inductive FileType where
  | File (path : Path)
  | Symlink (source : Path) (target : Path)
deriving DecidableEq, Repr

/-- `FileType::src_path`: the file path, or for a symlink its own link path. -/
def FileType.src_path : FileType → Path
  | .File p => p
  | .Symlink s _ => s

def FileType.isSymlink : FileType → Bool
  | .Symlink _ _ => true
  | _ => false

def FileType.isFile : FileType → Bool
  | .File _ => true
  | _ => false

/-- `struct MatchingFile { src_path, dest_path }`. -/
structure MatchingFile where
  src_path : Path
  dest_path : Path
deriving DecidableEq, Repr

/-- `struct DiscoveredFiles { files: HashMap<Hash, Vec<FileType>> }`, modelled as an
association list; bucket-internal order is the `Vec` push order, key order is one
linearization of the map's (unspecified) iteration order. -/
structure DiscoveredFiles where
  files : List (Hash × List FileType)
deriving DecidableEq, Repr

def DiscoveredFiles.empty : DiscoveredFiles := ⟨[]⟩

/-- `DiscoveredFiles::add_hash`: `self.files.entry(hash).or_default().push(path)`. -/
def addHash (d : DiscoveredFiles) (h : Hash) (ft : FileType) : DiscoveredFiles :=
  if (d.files.find? (fun b => b.1 == h)).isSome then
    ⟨d.files.map (fun b => if b.1 == h then (b.1, b.2 ++ [ft]) else b)⟩
  else
    ⟨d.files ++ [(h, [ft])]⟩

/-- `source_hashes.files.get(&hash)`. -/
def lookupBucket (d : DiscoveredFiles) (h : Hash) : Option (List FileType) :=
  (d.files.find? (fun b => b.1 == h)).map (fun b => b.2)

/-! Section: Filesystem model

The traversal reads a real filesystem. We model it as a finite map from paths to
nodes, together with per-path fault-injection sets modelling the I/O failures the
spec's error taxonomy names: `metaErr` (metadata retrieval fails), `readErr`
(directory enumeration or file open/read fails), `linkErr` (`read_link` fails). -/

/-- A filesystem node: regular file with byte content, directory with child
paths, symlink with its raw recorded target, or an unsupported kind. -/
inductive Node where
  | file (content : List Nat)
  | dir (entries : List Path)
  | symlink (target : Path)
  | other
deriving DecidableEq, Repr

structure Fs where
  nodes : List (Path × Node)
  metaErr : List Path
  readErr : List Path
  linkErr : List Path
deriving Repr

def Fs.lookup (fs : Fs) (p : Path) : Option Node :=
  (fs.nodes.find? (fun n => n.1 == p)).map (fun n => n.2)

/-- Follow symlink chains (bounded by a fuel); `none` models `ENOENT`/`ELOOP`. -/
def Fs.resolveAux (fs : Fs) : Nat → Path → Option Path
  | 0, _ => none
  | fuel + 1, p =>
    match fs.lookup p with
    | some (.symlink t) => fs.resolveAux fuel t
    | some _ => some p
    | none => none

def Fs.resolveP (fs : Fs) (p : Path) : Option Path :=
  fs.resolveAux (fs.nodes.length + 1) p

/-- `Path::metadata` (`stat`, follows symlinks): the final node, or `none` on failure. -/
def Fs.statNode (fs : Fs) (p : Path) : Option Node :=
  if p ∈ fs.metaErr then none else (fs.resolveP p).bind fs.lookup

/-- `std::fs::read_dir` (follows symlinks): the entries, or `none` on failure. -/
def readDir (fs : Fs) (p : Path) : Option (List Path) :=
  if p ∈ fs.readErr then none
  else
    match (fs.resolveP p).bind fs.lookup with
    | some (.dir es) => some es
    | _ => none

/-! Section: `hash_file`: open through symlinks, stream in 1024-byte chunks, SHA-256 -/

/-- The `reader.read(&mut buffer)` loop: the hasher state accumulates the chunks
read so far; structural fuel recursion so the kernel can evaluate it. -/
def readAllAux : Nat → List Nat → List Nat → List Nat
  | _, acc, [] => acc
  | 0, acc, rest => acc ++ rest
  | n + 1, acc, x :: xs => readAllAux n (acc ++ ((x :: xs).take 1024)) ((x :: xs).drop 1024)

def readAll (content : List Nat) : List Nat := readAllAux content.length [] content

/-- `fn hash_file(path) -> io::Result<String>`: `File::open` follows symlinks;
failure to open/resolve/read yields `none` (an `io::Error`). -/
def hash_file (fs : Fs) (p : Path) : Option Hash :=
  if p ∈ fs.readErr then none
  else
    match fs.resolveP p with
    | none => none
    | some q =>
      if q ∈ fs.readErr then none
      else
        match fs.lookup q with
        | some (.file c) => some (toHexUpper (sha256 (readAll c)))
        | _ => none

/-! Section: `find_and_hash_files`: the queue-based tree walker -/

/-- Outcome of a fallible operation: `ok`, an `io::Error` naming the failing
path, a Rust panic (`expect`), or exhaustion of the modelling fuel. -/
inductive Outcome (α : Type) where
  | ok (a : α)
  | ioError (p : Path)
  | panicked
  | outOfFuel
deriving DecidableEq, Repr

/-- One iteration of the `for entry in read_dir(dir)?` body: classify the entry
by (non-following) metadata; directories are enqueued (`push_back`, modelled by
consing onto the LIFO stack), files and symlinks are hashed and recorded, other
kinds are logged and skipped. `read_link(..).expect(..)` panics when the
symlink-target read fails. -/
def procEntry (fs : Fs) (st : DiscoveredFiles × List Path) (p : Path) :
    Outcome (DiscoveredFiles × List Path) :=
  if p ∈ fs.metaErr then .ioError p
  else
    match fs.lookup p with
    | none => .ioError p
    | some (.dir _) => .ok (st.1, p :: st.2)
    | some (.file _) =>
      match hash_file fs p with
      | some h => .ok (addHash st.1 h (.File p), st.2)
      | none => .ioError p
    | some (.symlink t) =>
      match hash_file fs p with
      | some h =>
        if p ∈ fs.linkErr then .panicked
        else .ok (addHash st.1 h (.Symlink p t), st.2)
      | none => .ioError p
    | some .other => .ok st

/-- Process the entries of one directory in order, threading the index and the
pending-directory stack, propagating the first failure. -/
def procEntries (fs : Fs) :
    DiscoveredFiles × List Path → List Path → Outcome (DiscoveredFiles × List Path)
  | st, [] => .ok st
  | st, e :: es =>
    match procEntry fs st e with
    | .ok st2 => procEntries fs st2 es
    | .ioError p => .ioError p
    | .panicked => .panicked
    | .outOfFuel => .outOfFuel

/-- The `while let Some(dir) = queue.pop_back()` loop (fuel-bounded). -/
def walkLoop (fs : Fs) : Nat → DiscoveredFiles → List Path → Outcome DiscoveredFiles
  | 0, _, _ => .outOfFuel
  | _ + 1, disc, [] => .ok disc
  | fuel + 1, disc, d :: rest =>
    match readDir fs d with
    | none => .ioError d
    | some es =>
      match procEntries fs (disc, rest) es with
      | .ok st2 => walkLoop fs fuel st2.1 st2.2
      | .ioError p => .ioError p
      | .panicked => .panicked
      | .outOfFuel => .outOfFuel

/-- `fn find_and_hash_files(disc_files, dir)`: a root whose (followed) metadata
is not a directory is hashed and inserted directly as a `File`; otherwise the
queue-based walk runs. Metadata failure on the root is an `io::Error`. -/
def find_and_hash_files (fs : Fs) (fuel : Nat) (disc : DiscoveredFiles) (root : Path) :
    Outcome DiscoveredFiles :=
  match fs.statNode root with
  | none => .ioError root
  | some (.dir _) => walkLoop fs fuel disc [root]
  | some _ =>
    match hash_file fs root with
    | some h => .ok (addHash disc h (.File root))
    | none => .ioError root

/-- The per-root accumulation loops in `find_matching_files` (`for dir in
source_dir { find_and_hash_files(&mut hashes, dir)?; }`). -/
def hashRoots (fs : Fs) (fuel : Nat) : DiscoveredFiles → List Path → Outcome DiscoveredFiles
  | disc, [] => .ok disc
  | disc, r :: rs =>
    match find_and_hash_files fs fuel disc r with
    | .ok d2 => hashRoots fs fuel d2 rs
    | .ioError p => .ioError p
    | .panicked => .panicked
    | .outOfFuel => .outOfFuel

/-! Section: The matching engine -/

/-- `bucket.iter().find(|p| matches!(p, FileType::Symlink { .. }))`, projected to
the symlink's recorded target. -/
def findFirstSymlinkTarget : List FileType → Option Path
  | [] => none
  | .File _ :: rest => findFirstSymlinkTarget rest
  | .Symlink _ t :: _ => some t

/-- Resolve the `chosen_source` for one target bucket: a symlink in the bucket
supplies its recorded target unless the symlink is the bucket's only entry
(skip); otherwise the first entry of the source bucket of the same hash
supplies its `src_path`; otherwise the bucket is skipped with a diagnostic. -/
def chooseSource (source_hashes : DiscoveredFiles) (h : Hash) (bucket : List FileType) :
    Option Path :=
  match findFirstSymlinkTarget bucket with
  | some symTarget => if bucket.length == 1 then none else some symTarget
  | none =>
    match lookupBucket source_hashes h with
    | some (e :: _) => some e.src_path
    | _ => none

/-- The matches emitted for one target bucket: one `MatchingFile` per
`FileType::File` entry, all sharing the resolved source. -/
def bucketMatches (source_hashes : DiscoveredFiles) (h : Hash) (bucket : List FileType) :
    List MatchingFile :=
  match chooseSource source_hashes h bucket with
  | none => []
  | some src =>
    (bucket.filter FileType.isFile).map (fun f => ⟨src, f.src_path⟩)

/-- The `for target in target_hashes.files` loop of `find_matching_files`. -/
def computeMatches (source_hashes target_hashes : DiscoveredFiles) : List MatchingFile :=
  (target_hashes.files.map (fun b => bucketMatches source_hashes b.1 b.2)).flatten

/-- `pub fn find_matching_files(source_dir, target_dir)`: build both indexes
root by root (fail fast), then run the matching engine. -/
def find_matching_files (fs : Fs) (fuel : Nat) (source_dir target_dir : List Path) :
    Outcome (List MatchingFile) :=
  match hashRoots fs fuel DiscoveredFiles.empty source_dir with
  | .ok source_hashes =>
    match hashRoots fs fuel DiscoveredFiles.empty target_dir with
    | .ok target_hashes => .ok (computeMatches source_hashes target_hashes)
    | .ioError p => .ioError p
    | .panicked => .panicked
    | .outOfFuel => .outOfFuel
  | .ioError p => .ioError p
  | .panicked => .panicked
  | .outOfFuel => .outOfFuel

/-! Section: Specification predicates -/

/-- The paths of the `RegularFile` entries of a bucket. -/
def filePaths (b : List FileType) : List Path :=
  (b.filter FileType.isFile).map FileType.src_path

/-- All entries of an index, across its buckets. -/
def allEntries (d : DiscoveredFiles) : List FileType :=
  (d.files.map (fun b => b.2)).flatten

/-- No target bucket resolves a `chosen_source` that is also the path of a
`RegularFile` entry of that same bucket. -/
def noSelfCandidate (s t : DiscoveredFiles) : Bool :=
  t.files.all (fun b =>
    match chooseSource s b.1 b.2 with
    | some cs => !((filePaths b.2).contains cs)
    | none => true)

def isDirNode : Option Node → Bool
  | some (.dir _) => true
  | _ => false

/-- A root that is a readable directory all of whose entries are non-directories. -/
def FlatRoot (fs : Fs) (r : Path) (es : List Path) : Prop :=
  r ∉ fs.metaErr ∧ r ∉ fs.readErr ∧ fs.lookup r = some (.dir es) ∧
    ∀ e ∈ es, isDirNode (fs.lookup e) = false

instance (fs : Fs) (r : Path) (es : List Path) : Decidable (FlatRoot fs r es) := by
  unfold FlatRoot; infer_instance

/-! Section: Helper lemmas on the matching engine -/

theorem mem_computeMatches {src tgt : DiscoveredFiles} {m : MatchingFile}
    (hm : m ∈ computeMatches src tgt) :
    ∃ h b, (h, b) ∈ tgt.files ∧ m ∈ bucketMatches src h b := by
  unfold computeMatches at hm
  rw [List.mem_flatten] at hm
  obtain ⟨l, hl, hml⟩ := hm
  rw [List.mem_map] at hl
  obtain ⟨⟨h, b⟩, hb, rfl⟩ := hl
  exact ⟨h, b, hb, hml⟩

theorem bucketMatches_spec {src : DiscoveredFiles} {h : Hash} {b : List FileType}
    {m : MatchingFile} (hm : m ∈ bucketMatches src h b) :
    chooseSource src h b = some m.src_path ∧ m.dest_path ∈ filePaths b ∧
      FileType.File m.dest_path ∈ b := by
  unfold bucketMatches at hm
  cases hcs : chooseSource src h b with
  | none => rw [hcs] at hm; simp at hm
  | some cs =>
    rw [hcs] at hm
    rw [List.mem_map] at hm
    obtain ⟨f, hf, rfl⟩ := hm
    have hfb := List.mem_filter.mp hf
    refine ⟨rfl, ?_, ?_⟩
    · exact List.mem_map.mpr ⟨f, hf, rfl⟩
    · cases f with
      | File p => exact hfb.1
      | Symlink s t => simp [FileType.isFile] at hfb

/-! Section: Concrete filesystem fixtures -/

/-- A target tree containing a regular file and a symlink pointing at it. -/
def fsSelfLink : Fs :=
  ⟨[("t", .dir ["t/a", "t/l"]), ("t/a", .file [120]), ("t/l", .symlink "t/a")], [], [], []⟩

/-- A target tree where reading the symlink's target fails. -/
def fsLinkErr : Fs :=
  ⟨[("t", .dir ["t/f", "t/l"]), ("t/f", .file [97]), ("t/l", .symlink "t/f")],
   [], [], ["t/l"]⟩

/-- A source tree whose only entry is a symlink to an outside file. -/
def fsSymSource : Fs :=
  ⟨[("s", .dir ["s/l"]), ("s/l", .symlink "f"), ("f", .file [88]),
    ("t", .dir ["t/d"]), ("t/d", .file [88])], [], [], []⟩

/-- Two source roots with disjoint files of equal content, one nested, plus the
combined root holding the same files. -/
def fsNested : Fs :=
  ⟨[("r1", .dir ["s1"]), ("s1", .dir ["s1/a"]), ("s1/a", .file [88]),
    ("r2", .dir ["r2/b"]), ("r2/b", .file [88]),
    ("c", .dir ["s1", "r2/b"]),
    ("t", .dir ["t/d"]), ("t/d", .file [88])], [], [], []⟩

/-- A root that is itself a symlink to an (empty) regular file. -/
def fsLinkRoot : Fs := ⟨[("r", .symlink "f"), ("f", .file [])], [], [], []⟩

/-- A matching source/target pair of flat directories. -/
def fsBasic : Fs :=
  ⟨[("s", .dir ["s/file1"]), ("s/file1", .file [99]),
    ("t", .dir ["t/file1"]), ("t/file1", .file [99])], [], [], []⟩

/-- A one-bucket source index fixture. -/
def srcIdx1 : DiscoveredFiles := ⟨[("H", [.File "s/file1"])]⟩

/-- A one-bucket target index fixture. -/
def tgtIdx1 : DiscoveredFiles := ⟨[("H", [.File "t/file1"])]⟩

/-! Section: Claims about the matching engine -/

/-- Claim C1, counterexample: on a target bucket holding both a regular file and
a symlink whose recorded target names that file, `find_matching_files` emits a
`MatchingFile` whose `dest_path` equals its `src_path` (the chosen source). -/
theorem C1_counterexample :
    ∃ ms m, find_matching_files fsSelfLink 10 [] ["t"] = .ok ms ∧ m ∈ ms ∧
      m.dest_path = m.src_path :=
  ⟨[⟨"t/a", "t/a"⟩], ⟨"t/a", "t/a"⟩, by decide, by decide, rfl⟩

/-- Claim C1 (amended): for every pair of source and target indexes in which no
target bucket resolves a `chosen_source` equal to the path of a `RegularFile`
entry of that same bucket, every emitted `MatchingFile` has
`dest_path ≠ src_path`. -/
theorem C1_amended (src tgt : DiscoveredFiles) (hno : noSelfCandidate src tgt = true) :
    ∀ m ∈ computeMatches src tgt, m.dest_path ≠ m.src_path := by
  intro m hm
  obtain ⟨h, b, hb, hmb⟩ := mem_computeMatches hm
  obtain ⟨hcs, hdest, _⟩ := bucketMatches_spec hmb
  have hall := (List.all_eq_true.mp hno) (h, b) hb
  simp only [hcs] at hall
  have hnotmem : m.src_path ∉ filePaths b := by simpa using hall
  intro heq
  exact hnotmem (heq ▸ hdest)

/-- Claim C1 witness: the amended statement applied to concrete one-bucket
indexes with distinct source and target paths. -/
theorem C1_witness :
    (⟨"s/file1", "t/file1"⟩ : MatchingFile).dest_path ≠
      (⟨"s/file1", "t/file1"⟩ : MatchingFile).src_path :=
  C1_amended srcIdx1 tgtIdx1 (by decide) ⟨"s/file1", "t/file1"⟩ (by decide)

/-- Claim C3, counterexample: when the first entry of the matching source bucket
is a `Symlink`, the emitted `src_path` is the symlink's own link path
(`"s/l"`), not the symlink's recorded target (`"f"`), contradicting the claim. -/
theorem C3_counterexample :
    find_matching_files fsSymSource 10 ["s"] ["t"] = .ok [⟨"s/l", "t/d"⟩] ∧
      fsSymSource.lookup "s/l" = some (.symlink "f") ∧ ("s/l" : Path) ≠ "f" :=
  ⟨by decide, by decide, by decide⟩

/-- Claim C3 (amended): the `src_path` of every emitted `MatchingFile` is
either the recorded target of the first symlink of its target bucket, or, when
that bucket contains no symlink, the `src_path` of the first entry of the
matching source bucket — which, when that first entry is a `Symlink` entry, is
the symlink's own link path, not the symlink's recorded target. -/
theorem C3_amended (src tgt : DiscoveredFiles) (m : MatchingFile)
    (hm : m ∈ computeMatches src tgt) :
    ∃ h b, (h, b) ∈ tgt.files ∧
      (findFirstSymlinkTarget b = some m.src_path ∨
        (findFirstSymlinkTarget b = none ∧
          ∃ e rest, lookupBucket src h = some (e :: rest) ∧ m.src_path = e.src_path ∧
            ∀ lp tp, e = FileType.Symlink lp tp → m.src_path = lp)) := by
  obtain ⟨h, b, hb, hmb⟩ := mem_computeMatches hm
  obtain ⟨hcs, _, _⟩ := bucketMatches_spec hmb
  refine ⟨h, b, hb, ?_⟩
  unfold chooseSource at hcs
  cases hft : findFirstSymlinkTarget b with
  | some t =>
    rw [hft] at hcs
    left
    have hcs2 : (if (b.length == 1) = true then none else some t) = some m.src_path := hcs
    by_cases hlen : (b.length == 1) = true
    · rw [if_pos hlen] at hcs2
      exact absurd hcs2 (by simp)
    · rw [if_neg hlen] at hcs2
      exact hcs2
  | none =>
    rw [hft] at hcs
    right
    refine ⟨rfl, ?_⟩
    cases hlb : lookupBucket src h with
    | none =>
      rw [hlb] at hcs
      exact absurd hcs (by simp)
    | some l =>
      rw [hlb] at hcs
      cases l with
      | nil => exact absurd hcs (by simp)
      | cons e rest =>
        have hcs2 : some e.src_path = some m.src_path := hcs
        have heq : m.src_path = e.src_path := (Option.some_inj.mp hcs2).symm
        refine ⟨e, rest, rfl, heq, ?_⟩
        intro lp tp he
        rw [heq, he]
        rfl

/-- Claim C3 witness: the amended characterization applied to a concrete match
whose source bucket's first entry is the symlink `s/l -> f`: the emitted
`src_path` is the link path `s/l`. -/
theorem C3_witness :
    ∃ h b, (h, b) ∈ (⟨[("H", [FileType.File "t/d"])]⟩ : DiscoveredFiles).files ∧
      (findFirstSymlinkTarget b = some (⟨"s/l", "t/d"⟩ : MatchingFile).src_path ∨
        (findFirstSymlinkTarget b = none ∧
          ∃ e rest,
            lookupBucket ⟨[("H", [FileType.Symlink "s/l" "f"])]⟩ h = some (e :: rest) ∧
              (⟨"s/l", "t/d"⟩ : MatchingFile).src_path = e.src_path ∧
              ∀ lp tp, e = FileType.Symlink lp tp →
                (⟨"s/l", "t/d"⟩ : MatchingFile).src_path = lp)) :=
  C3_amended ⟨[("H", [.Symlink "s/l" "f"])]⟩ ⟨[("H", [.File "t/d"])]⟩
    ⟨"s/l", "t/d"⟩ (by decide)

/-- Claim C4: a target hash bucket whose single entry is a `Symlink` contributes
zero `MatchingFile` values: its own matches are empty and removing it leaves the
engine's output unchanged. -/
theorem C4_single_symlink_bucket (src : DiscoveredFiles) (h : Hash) (s t : Path)
    (pre post : List (Hash × List FileType)) (tgt : DiscoveredFiles)
    (htgt : tgt.files = pre ++ (h, [.Symlink s t]) :: post) :
    bucketMatches src h [.Symlink s t] = [] ∧
      computeMatches src tgt = computeMatches src ⟨pre ++ post⟩ := by
  have hb : bucketMatches src h [.Symlink s t] = [] := by
    unfold bucketMatches chooseSource findFirstSymlinkTarget
    rfl
  refine ⟨hb, ?_⟩
  unfold computeMatches
  rw [htgt]
  simp [List.map_append, hb]

/-- Claim C4 witness: a concrete two-bucket target index where the
symlink-only bucket is skipped. -/
theorem C4_witness :
    bucketMatches ⟨[]⟩ "H" [.Symlink "t/l" "t/a"] = [] ∧
      computeMatches ⟨[]⟩ ⟨[("H", [.Symlink "t/l" "t/a"]), ("G", [.File "t/b"])]⟩ =
        computeMatches ⟨[]⟩ ⟨[("G", [.File "t/b"])]⟩ :=
  C4_single_symlink_bucket ⟨[]⟩ "H" "t/l" "t/a" [] [("G", [.File "t/b"])] _ rfl

/-- Claim C5: a target bucket whose `chosen_source` resolves emits exactly one
`MatchingFile` per `RegularFile` entry, all carrying that same `src_path`. -/
theorem C5_multiplicity (src : DiscoveredFiles) (h : Hash) (b : List FileType) (cs : Path)
    (hcs : chooseSource src h b = some cs) :
    (bucketMatches src h b).length = (b.filter FileType.isFile).length ∧
      ∀ m ∈ bucketMatches src h b, m.src_path = cs := by
  constructor
  · unfold bucketMatches
    rw [hcs]
    simp
  · intro m hm
    obtain ⟨hcs2, _, _⟩ := bucketMatches_spec hm
    rw [hcs] at hcs2
    exact (Option.some_inj.mp hcs2).symm

/-- Claim C5 witness: two duplicate regular files and one source file yield two
matches sharing the source path. -/
theorem C5_witness :
    (bucketMatches srcIdx1 "H" [.File "t/a", .File "t/b"]).length =
        (([.File "t/a", .File "t/b"] : List FileType).filter FileType.isFile).length ∧
      ∀ m ∈ bucketMatches srcIdx1 "H" [.File "t/a", .File "t/b"],
        m.src_path = "s/file1" :=
  C5_multiplicity srcIdx1 "H" [.File "t/a", .File "t/b"] "s/file1" (by decide)

/-- Claim C6: every emitted `dest_path` is the path of a `RegularFile` entry of
the target index; and when entry paths are unrepeated it is never the link path
of a `Symlink` entry. -/
theorem C6_dest_is_regular (src tgt : DiscoveredFiles) (m : MatchingFile)
    (hm : m ∈ computeMatches src tgt) :
    (∃ h b, (h, b) ∈ tgt.files ∧ FileType.File m.dest_path ∈ b) ∧
      (((allEntries tgt).map FileType.src_path).Nodup →
        ∀ lp tp, FileType.Symlink lp tp ∈ allEntries tgt → lp ≠ m.dest_path) := by
  obtain ⟨h, b, hb, hmb⟩ := mem_computeMatches hm
  obtain ⟨_, _, hfile⟩ := bucketMatches_spec hmb
  have hfileAll : FileType.File m.dest_path ∈ allEntries tgt := by
    unfold allEntries
    rw [List.mem_flatten]
    exact ⟨b, List.mem_map.mpr ⟨(h, b), hb, rfl⟩, hfile⟩
  refine ⟨⟨h, b, hb, hfile⟩, ?_⟩
  intro hnd lp tp hsym heq
  have heq2 : FileType.src_path (.Symlink lp tp) = FileType.src_path (.File m.dest_path) := by
    simp [FileType.src_path, heq]
  exact FileType.noConfusion (List.inj_on_of_nodup_map hnd hsym hfileAll heq2)

/-- Claim C6 witness: in a concrete bucket holding a file and the symlink that
chose the source, the emitted `dest_path` is the regular file's path and not
the symlink's. -/
theorem C6_witness :
    (∃ h b, (h, b) ∈ (⟨[("H", [.File "t/a", .Symlink "t/l" "s/x"])]⟩ :
          DiscoveredFiles).files ∧
        FileType.File (⟨"s/x", "t/a"⟩ : MatchingFile).dest_path ∈ b) ∧
      (((allEntries ⟨[("H", [.File "t/a", .Symlink "t/l" "s/x"])]⟩).map
            FileType.src_path).Nodup →
        ∀ lp tp, FileType.Symlink lp tp ∈
            allEntries ⟨[("H", [.File "t/a", .Symlink "t/l" "s/x"])]⟩ →
          lp ≠ (⟨"s/x", "t/a"⟩ : MatchingFile).dest_path) :=
  C6_dest_is_regular ⟨[]⟩ ⟨[("H", [.File "t/a", .Symlink "t/l" "s/x"])]⟩
    ⟨"s/x", "t/a"⟩ (by decide)

/-- Claim C7: a target bucket with no `Symlink` entry and no source bucket of
the same hash contributes no matches, and the remaining buckets' matches are
unchanged (the engine itself never fails on such a bucket). -/
theorem C7_unresolvable_bucket (src : DiscoveredFiles) (h : Hash) (b : List FileType)
    (pre post : List (Hash × List FileType)) (tgt : DiscoveredFiles)
    (hnosym : findFirstSymlinkTarget b = none)
    (hnosrc : lookupBucket src h = none)
    (htgt : tgt.files = pre ++ (h, b) :: post) :
    bucketMatches src h b = [] ∧
      computeMatches src tgt = computeMatches src ⟨pre ++ post⟩ := by
  have hb : bucketMatches src h b = [] := by
    unfold bucketMatches chooseSource
    rw [hnosym, hnosrc]
  refine ⟨hb, ?_⟩
  unfold computeMatches
  rw [htgt]
  simp [List.map_append, hb]

/-- Claim C7 witness: a concrete unmatched bucket is skipped while the matched
bucket still produces its match. -/
theorem C7_witness :
    bucketMatches srcIdx1 "G" [.File "t/u"] = [] ∧
      computeMatches srcIdx1 ⟨[("G", [.File "t/u"]), ("H", [.File "t/file1"])]⟩ =
        computeMatches srcIdx1 ⟨[("H", [.File "t/file1"])]⟩ :=
  C7_unresolvable_bucket srcIdx1 "G" [.File "t/u"] [] [("H", [.File "t/file1"])] _
    (by decide) (by decide) rfl

/-! Section: Error propagation: no code path other than `read_link(..).expect(..)`
can panic, and the first I/O failure aborts the call -/

theorem procEntry_ne_panicked (fs : Fs) (hle : fs.linkErr = [])
    (st : DiscoveredFiles × List Path) (p : Path) :
    procEntry fs st p ≠ Outcome.panicked := by
  unfold procEntry
  by_cases hm : p ∈ fs.metaErr
  · simp [hm]
  · simp only [if_neg hm]
    cases hlk : fs.lookup p with
    | none => simp
    | some n =>
      cases n with
      | file c => cases hh : hash_file fs p <;> simp
      | dir es => simp
      | symlink t =>
        cases hh : hash_file fs p with
        | none => simp
        | some hv => simp [hle]
      | other => simp

theorem procEntries_ne_panicked (fs : Fs) (hle : fs.linkErr = []) :
    ∀ (es : List Path) (st : DiscoveredFiles × List Path),
      procEntries fs st es ≠ Outcome.panicked := by
  intro es
  induction es with
  | nil => intro st; simp [procEntries]
  | cons e es ih =>
    intro st
    unfold procEntries
    cases hpe : procEntry fs st e with
    | ok st2 => exact ih st2
    | ioError p => simp
    | panicked => exact absurd hpe (procEntry_ne_panicked fs hle st e)
    | outOfFuel => simp

theorem walkLoop_ne_panicked (fs : Fs) (hle : fs.linkErr = []) :
    ∀ (fuel : Nat) (disc : DiscoveredFiles) (q : List Path),
      walkLoop fs fuel disc q ≠ Outcome.panicked := by
  intro fuel
  induction fuel with
  | zero => intro disc q; simp [walkLoop]
  | succ n ih =>
    intro disc q
    cases q with
    | nil => simp [walkLoop]
    | cons d rest =>
      unfold walkLoop
      cases hrd : readDir fs d with
      | none => simp
      | some es =>
        cases hpe : procEntries fs (disc, rest) es with
        | ok st2 => simp only [hpe]; exact ih st2.1 st2.2
        | ioError p => simp [hpe]
        | panicked => exact absurd hpe (procEntries_ne_panicked fs hle es (disc, rest))
        | outOfFuel => simp [hpe]

theorem find_and_hash_ne_panicked (fs : Fs) (hle : fs.linkErr = [])
    (fuel : Nat) (disc : DiscoveredFiles) (root : Path) :
    find_and_hash_files fs fuel disc root ≠ Outcome.panicked := by
  unfold find_and_hash_files
  cases hst : fs.statNode root with
  | none => simp
  | some n =>
    cases n with
    | dir es => exact walkLoop_ne_panicked fs hle fuel disc [root]
    | file c => cases hh : hash_file fs root <;> simp
    | symlink t => cases hh : hash_file fs root <;> simp
    | other => cases hh : hash_file fs root <;> simp

theorem hashRoots_ne_panicked (fs : Fs) (hle : fs.linkErr = []) (fuel : Nat) :
    ∀ (roots : List Path) (disc : DiscoveredFiles),
      hashRoots fs fuel disc roots ≠ Outcome.panicked := by
  intro roots
  induction roots with
  | nil => intro disc; simp [hashRoots]
  | cons r rs ih =>
    intro disc
    unfold hashRoots
    cases hf : find_and_hash_files fs fuel disc r with
    | ok d2 => exact ih d2
    | ioError p => simp
    | panicked => exact absurd hf (find_and_hash_ne_panicked fs hle fuel disc r)
    | outOfFuel => simp

theorem walkLoop_succ_cons (fs : Fs) (fuel : Nat) (disc : DiscoveredFiles)
    (d : Path) (rest : List Path) :
    walkLoop fs (fuel + 1) disc (d :: rest) =
      match readDir fs d with
      | none => .ioError d
      | some es =>
        match procEntries fs (disc, rest) es with
        | .ok st2 => walkLoop fs fuel st2.1 st2.2
        | .ioError p => .ioError p
        | .panicked => .panicked
        | .outOfFuel => .outOfFuel := rfl

theorem walkLoop_succ_nil (fs : Fs) (fuel : Nat) (disc : DiscoveredFiles) :
    walkLoop fs (fuel + 1) disc [] = .ok disc := rfl

theorem hashRoots_cons (fs : Fs) (fuel : Nat) (disc : DiscoveredFiles)
    (r : Path) (rs : List Path) :
    hashRoots fs fuel disc (r :: rs) =
      match find_and_hash_files fs fuel disc r with
      | .ok d2 => hashRoots fs fuel d2 rs
      | .ioError p => .ioError p
      | .panicked => .panicked
      | .outOfFuel => .outOfFuel := rfl

/-- One-step equation for `procEntries`. -/
theorem procEntries_cons (fs : Fs) (st : DiscoveredFiles × List Path) (e : Path)
    (es : List Path) :
    procEntries fs st (e :: es) =
      match procEntry fs st e with
      | .ok st2 => procEntries fs st2 es
      | .ioError p => .ioError p
      | .panicked => .panicked
      | .outOfFuel => .outOfFuel := rfl

/-- A path at which some filesystem operation genuinely fails: metadata, open or
read, lookup, hashing, directory enumeration, or followed metadata. -/
def ioFailure (fs : Fs) (p : Path) : Prop :=
  p ∈ fs.metaErr ∨ p ∈ fs.readErr ∨ fs.lookup p = none ∨ hash_file fs p = none ∨
    readDir fs p = none ∨ fs.statNode p = none

theorem procEntry_ioError_sound (fs : Fs) (st : DiscoveredFiles × List Path) (p q : Path)
    (h : procEntry fs st p = .ioError q) : ioFailure fs q := by
  unfold procEntry at h
  by_cases hm : p ∈ fs.metaErr
  · rw [if_pos hm] at h
    have h2 : (Outcome.ioError p : Outcome (DiscoveredFiles × List Path)) = .ioError q := h
    injection h2 with hpq
    subst hpq
    exact Or.inl hm
  · rw [if_neg hm] at h
    cases hlk : fs.lookup p with
    | none =>
      rw [hlk] at h
      have h2 : (Outcome.ioError p : Outcome (DiscoveredFiles × List Path)) = .ioError q := h
      injection h2 with hpq
      subst hpq
      exact Or.inr (Or.inr (Or.inl hlk))
    | some n =>
      rw [hlk] at h
      cases n with
      | dir es =>
        exact absurd (show Outcome.ok (st.1, p :: st.2) = Outcome.ioError q from h) (by simp)
      | file c =>
        cases hh : hash_file fs p with
        | some hv =>
          rw [hh] at h
          exact absurd
            (show Outcome.ok (addHash st.1 hv (.File p), st.2) = Outcome.ioError q from h)
            (by simp)
        | none =>
          rw [hh] at h
          have h2 : (Outcome.ioError p : Outcome (DiscoveredFiles × List Path)) = .ioError q := h
          injection h2 with hpq
          subst hpq
          exact Or.inr (Or.inr (Or.inr (Or.inl hh)))
      | symlink t =>
        cases hh : hash_file fs p with
        | some hv =>
          rw [hh] at h
          have h5 : (if p ∈ fs.linkErr
                then (Outcome.panicked : Outcome (DiscoveredFiles × List Path))
                else Outcome.ok (addHash st.1 hv (.Symlink p t), st.2)) =
              Outcome.ioError q := h
          by_cases hl : p ∈ fs.linkErr
          · rw [if_pos hl] at h5
            exact absurd h5 (by simp)
          · rw [if_neg hl] at h5
            exact absurd h5 (by simp)
        | none =>
          rw [hh] at h
          have h2 : (Outcome.ioError p : Outcome (DiscoveredFiles × List Path)) = .ioError q := h
          injection h2 with hpq
          subst hpq
          exact Or.inr (Or.inr (Or.inr (Or.inl hh)))
      | other =>
        exact absurd (show Outcome.ok st = Outcome.ioError q from h) (by simp)

theorem procEntries_ioError_sound (fs : Fs) :
    ∀ (es : List Path) (st : DiscoveredFiles × List Path) (q : Path),
      procEntries fs st es = .ioError q → ioFailure fs q := by
  intro es
  induction es with
  | nil => intro st q h; exact absurd h (by simp [procEntries])
  | cons e es ih =>
    intro st q h
    rw [procEntries_cons] at h
    cases hpe : procEntry fs st e with
    | ok st2 =>
      rw [hpe] at h
      exact ih st2 q h
    | ioError p =>
      rw [hpe] at h
      have h2 : (Outcome.ioError p : Outcome (DiscoveredFiles × List Path)) = .ioError q := h
      injection h2 with hpq
      subst hpq
      exact procEntry_ioError_sound fs st e p hpe
    | panicked =>
      rw [hpe] at h
      exact absurd (show (Outcome.panicked : Outcome (DiscoveredFiles × List Path)) =
        .ioError q from h) (by simp)
    | outOfFuel =>
      rw [hpe] at h
      exact absurd (show (Outcome.outOfFuel : Outcome (DiscoveredFiles × List Path)) =
        .ioError q from h) (by simp)

theorem walkLoop_ioError_sound (fs : Fs) :
    ∀ (fuel : Nat) (disc : DiscoveredFiles) (qu : List Path) (q : Path),
      walkLoop fs fuel disc qu = .ioError q → ioFailure fs q := by
  intro fuel
  induction fuel with
  | zero => intro disc qu q h; exact absurd h (by simp [walkLoop])
  | succ n ih =>
    intro disc qu q h
    cases qu with
    | nil => exact absurd h (by simp [walkLoop])
    | cons d rest =>
      rw [walkLoop_succ_cons] at h
      cases hrd : readDir fs d with
      | none =>
        rw [hrd] at h
        have h2 : (Outcome.ioError d : Outcome DiscoveredFiles) = .ioError q := h
        injection h2 with hdq
        subst hdq
        exact Or.inr (Or.inr (Or.inr (Or.inr (Or.inl hrd))))
      | some es =>
        rw [hrd] at h
        have h3 : (match procEntries fs (disc, rest) es with
          | Outcome.ok st2 => walkLoop fs n st2.1 st2.2
          | Outcome.ioError p => Outcome.ioError p
          | Outcome.panicked => Outcome.panicked
          | Outcome.outOfFuel => Outcome.outOfFuel) = Outcome.ioError q := h
        cases hpe : procEntries fs (disc, rest) es with
        | ok st2 =>
          rw [hpe] at h3
          exact ih st2.1 st2.2 q h3
        | ioError p =>
          rw [hpe] at h3
          have h4 : (Outcome.ioError p : Outcome DiscoveredFiles) = .ioError q := h3
          injection h4 with hpq
          subst hpq
          exact procEntries_ioError_sound fs es (disc, rest) p hpe
        | panicked =>
          rw [hpe] at h3
          exact absurd (show (Outcome.panicked : Outcome DiscoveredFiles) = .ioError q from h3)
            (by simp)
        | outOfFuel =>
          rw [hpe] at h3
          exact absurd (show (Outcome.outOfFuel : Outcome DiscoveredFiles) = .ioError q from h3)
            (by simp)

theorem find_and_hash_ioError_sound (fs : Fs) (fuel : Nat) (disc : DiscoveredFiles)
    (root q : Path) (h : find_and_hash_files fs fuel disc root = .ioError q) :
    ioFailure fs q := by
  unfold find_and_hash_files at h
  cases hst : fs.statNode root with
  | none =>
    rw [hst] at h
    have h2 : (Outcome.ioError root : Outcome DiscoveredFiles) = .ioError q := h
    injection h2 with hrq
    subst hrq
    exact Or.inr (Or.inr (Or.inr (Or.inr (Or.inr hst))))
  | some n =>
    rw [hst] at h
    cases n with
    | dir es => exact walkLoop_ioError_sound fs fuel disc [root] q h
    | file c =>
      cases hh : hash_file fs root with
      | some hv =>
        rw [hh] at h
        exact absurd (show Outcome.ok (addHash disc hv (.File root)) = Outcome.ioError q from h)
          (by simp)
      | none =>
        rw [hh] at h
        have h2 : (Outcome.ioError root : Outcome DiscoveredFiles) = .ioError q := h
        injection h2 with hrq
        subst hrq
        exact Or.inr (Or.inr (Or.inr (Or.inl hh)))
    | symlink t =>
      cases hh : hash_file fs root with
      | some hv =>
        rw [hh] at h
        exact absurd (show Outcome.ok (addHash disc hv (.File root)) = Outcome.ioError q from h)
          (by simp)
      | none =>
        rw [hh] at h
        have h2 : (Outcome.ioError root : Outcome DiscoveredFiles) = .ioError q := h
        injection h2 with hrq
        subst hrq
        exact Or.inr (Or.inr (Or.inr (Or.inl hh)))
    | other =>
      cases hh : hash_file fs root with
      | some hv =>
        rw [hh] at h
        exact absurd (show Outcome.ok (addHash disc hv (.File root)) = Outcome.ioError q from h)
          (by simp)
      | none =>
        rw [hh] at h
        have h2 : (Outcome.ioError root : Outcome DiscoveredFiles) = .ioError q := h
        injection h2 with hrq
        subst hrq
        exact Or.inr (Or.inr (Or.inr (Or.inl hh)))

theorem hashRoots_ioError_sound (fs : Fs) (fuel : Nat) :
    ∀ (rs : List Path) (disc : DiscoveredFiles) (q : Path),
      hashRoots fs fuel disc rs = .ioError q → ioFailure fs q := by
  intro rs
  induction rs with
  | nil => intro disc q h; exact absurd h (by simp [hashRoots])
  | cons r rs ih =>
    intro disc q h
    rw [hashRoots_cons] at h
    cases hf : find_and_hash_files fs fuel disc r with
    | ok d2 =>
      rw [hf] at h
      exact ih d2 q h
    | ioError p =>
      rw [hf] at h
      have h2 : (Outcome.ioError p : Outcome DiscoveredFiles) = .ioError q := h
      injection h2 with hpq
      subst hpq
      exact find_and_hash_ioError_sound fs fuel disc r p hf
    | panicked =>
      rw [hf] at h
      exact absurd (show (Outcome.panicked : Outcome DiscoveredFiles) = .ioError q from h)
        (by simp)
    | outOfFuel =>
      rw [hf] at h
      exact absurd (show (Outcome.outOfFuel : Outcome DiscoveredFiles) = .ioError q from h)
        (by simp)

theorem find_matching_ioError_sound (fs : Fs) (fuel : Nat) (srcs tgts : List Path) (q : Path)
    (h : find_matching_files fs fuel srcs tgts = .ioError q) : ioFailure fs q := by
  unfold find_matching_files at h
  cases h1 : hashRoots fs fuel DiscoveredFiles.empty srcs with
  | ok sh =>
    rw [h1] at h
    have h3 : (match hashRoots fs fuel DiscoveredFiles.empty tgts with
      | Outcome.ok target_hashes => Outcome.ok (computeMatches sh target_hashes)
      | Outcome.ioError p => Outcome.ioError p
      | Outcome.panicked => Outcome.panicked
      | Outcome.outOfFuel => Outcome.outOfFuel) = Outcome.ioError q := h
    cases h2 : hashRoots fs fuel DiscoveredFiles.empty tgts with
    | ok th =>
      rw [h2] at h3
      exact absurd (show Outcome.ok (computeMatches sh th) = Outcome.ioError q from h3) (by simp)
    | ioError p =>
      rw [h2] at h3
      have h4 : (Outcome.ioError p : Outcome (List MatchingFile)) = .ioError q := h3
      injection h4 with hpq
      subst hpq
      exact hashRoots_ioError_sound fs fuel tgts DiscoveredFiles.empty p h2
    | panicked =>
      rw [h2] at h3
      exact absurd (show (Outcome.panicked : Outcome (List MatchingFile)) = .ioError q from h3)
        (by simp)
    | outOfFuel =>
      rw [h2] at h3
      exact absurd (show (Outcome.outOfFuel : Outcome (List MatchingFile)) = .ioError q from h3)
        (by simp)
  | ioError p =>
    rw [h1] at h
    have h2 : (Outcome.ioError p : Outcome (List MatchingFile)) = .ioError q := h
    injection h2 with hpq
    subst hpq
    exact hashRoots_ioError_sound fs fuel srcs DiscoveredFiles.empty p h1
  | panicked =>
    rw [h1] at h
    exact absurd (show (Outcome.panicked : Outcome (List MatchingFile)) = .ioError q from h)
      (by simp)
  | outOfFuel =>
    rw [h1] at h
    exact absurd (show (Outcome.outOfFuel : Outcome (List MatchingFile)) = .ioError q from h)
      (by simp)

theorem procEntry_metaErr (fs : Fs) (st : DiscoveredFiles × List Path) (p : Path)
    (h : p ∈ fs.metaErr) : procEntry fs st p = .ioError p := by
  unfold procEntry
  rw [if_pos h]

theorem procEntry_file_readErr (fs : Fs) (st : DiscoveredFiles × List Path) (p : Path)
    (c : List Nat) (h1 : p ∉ fs.metaErr) (h2 : fs.lookup p = some (.file c))
    (h3 : hash_file fs p = none) : procEntry fs st p = .ioError p := by
  unfold procEntry
  rw [if_neg h1, h2, h3]

theorem procEntry_symlink_readErr (fs : Fs) (st : DiscoveredFiles × List Path) (p : Path)
    (t : Path) (h1 : p ∉ fs.metaErr) (h2 : fs.lookup p = some (.symlink t))
    (h3 : hash_file fs p = none) : procEntry fs st p = .ioError p := by
  unfold procEntry
  rw [if_neg h1, h2, h3]

theorem procEntries_append_ioError (fs : Fs) :
    ∀ (es1 : List Path) (st st2 : DiscoveredFiles × List Path) (e : Path) (es2 : List Path)
      (p : Path),
      procEntries fs st es1 = .ok st2 → procEntry fs st2 e = .ioError p →
      procEntries fs st (es1 ++ e :: es2) = .ioError p := by
  intro es1
  induction es1 with
  | nil =>
    intro st st2 e es2 p h1 h2
    have h1b : (Outcome.ok st : Outcome (DiscoveredFiles × List Path)) = .ok st2 := h1
    injection h1b with hst
    subst hst
    show procEntries fs st (e :: es2) = .ioError p
    rw [procEntries_cons, h2]
  | cons a es ih =>
    intro st st2 e es2 p h1 h2
    rw [procEntries_cons] at h1
    simp only [List.cons_append]
    rw [procEntries_cons]
    cases hpa : procEntry fs st a with
    | ok stA =>
      rw [hpa] at h1
      exact ih stA st2 e es2 p h1 h2
    | ioError pB =>
      rw [hpa] at h1
      exact absurd (show (Outcome.ioError pB : Outcome (DiscoveredFiles × List Path)) =
        .ok st2 from h1) (by simp)
    | panicked =>
      rw [hpa] at h1
      exact absurd (show (Outcome.panicked : Outcome (DiscoveredFiles × List Path)) =
        .ok st2 from h1) (by simp)
    | outOfFuel =>
      rw [hpa] at h1
      exact absurd (show (Outcome.outOfFuel : Outcome (DiscoveredFiles × List Path)) =
        .ok st2 from h1) (by simp)

theorem walkLoop_readErr (fs : Fs) (fuel : Nat) (disc : DiscoveredFiles) (d : Path)
    (rest : List Path) (h : d ∈ fs.readErr) :
    walkLoop fs (fuel + 1) disc (d :: rest) = .ioError d := by
  rw [walkLoop_succ_cons]
  have hrd : readDir fs d = none := by simp [readDir, h]
  rw [hrd]

theorem walkLoop_entries_ioError (fs : Fs) (fuel : Nat) (disc : DiscoveredFiles) (d : Path)
    (rest es : List Path) (p : Path) (h1 : readDir fs d = some es)
    (h2 : procEntries fs (disc, rest) es = .ioError p) :
    walkLoop fs (fuel + 1) disc (d :: rest) = .ioError p := by
  rw [walkLoop_succ_cons, h1]
  show (match procEntries fs (disc, rest) es with
    | Outcome.ok st2 => walkLoop fs fuel st2.1 st2.2
    | Outcome.ioError p => Outcome.ioError p
    | Outcome.panicked => Outcome.panicked
    | Outcome.outOfFuel => Outcome.outOfFuel) = Outcome.ioError p
  rw [h2]

theorem find_and_hash_metaErr (fs : Fs) (fuel : Nat) (disc : DiscoveredFiles) (r : Path)
    (h : r ∈ fs.metaErr) : find_and_hash_files fs fuel disc r = .ioError r := by
  have hstat : fs.statNode r = none := by simp [Fs.statNode, h]
  unfold find_and_hash_files
  rw [hstat]

theorem find_and_hash_dir_readErr (fs : Fs) (fuel : Nat) (disc : DiscoveredFiles) (r : Path)
    (es : List Path) (h1 : fs.statNode r = some (.dir es)) (h2 : r ∈ fs.readErr) :
    find_and_hash_files fs (fuel + 1) disc r = .ioError r := by
  unfold find_and_hash_files
  rw [h1]
  exact walkLoop_readErr fs fuel disc r [] h2

theorem find_and_hash_walk_ioError (fs : Fs) (fuel : Nat) (disc : DiscoveredFiles) (r : Path)
    (es : List Path) (p : Path) (h1 : fs.statNode r = some (.dir es))
    (h2 : walkLoop fs fuel disc [r] = .ioError p) :
    find_and_hash_files fs fuel disc r = .ioError p := by
  unfold find_and_hash_files
  rw [h1]
  exact h2

theorem hashRoots_append_ioError (fs : Fs) (fuel : Nat) :
    ∀ (rs1 : List Path) (disc d : DiscoveredFiles) (r : Path) (rs2 : List Path) (p : Path),
      hashRoots fs fuel disc rs1 = .ok d → find_and_hash_files fs fuel d r = .ioError p →
      hashRoots fs fuel disc (rs1 ++ r :: rs2) = .ioError p := by
  intro rs1
  induction rs1 with
  | nil =>
    intro disc d r rs2 p h1 h2
    have h1b : (Outcome.ok disc : Outcome DiscoveredFiles) = .ok d := h1
    injection h1b with hd
    subst hd
    show hashRoots fs fuel disc (r :: rs2) = .ioError p
    rw [hashRoots_cons, h2]
  | cons a rs ih =>
    intro disc d r rs2 p h1 h2
    rw [hashRoots_cons] at h1
    simp only [List.cons_append]
    rw [hashRoots_cons]
    cases hf : find_and_hash_files fs fuel disc a with
    | ok dA =>
      rw [hf] at h1
      exact ih dA d r rs2 p h1 h2
    | ioError pB =>
      rw [hf] at h1
      exact absurd (show (Outcome.ioError pB : Outcome DiscoveredFiles) = .ok d from h1)
        (by simp)
    | panicked =>
      rw [hf] at h1
      exact absurd (show (Outcome.panicked : Outcome DiscoveredFiles) = .ok d from h1) (by simp)
    | outOfFuel =>
      rw [hf] at h1
      exact absurd (show (Outcome.outOfFuel : Outcome DiscoveredFiles) = .ok d from h1) (by simp)

theorem find_matching_src_ioError (fs : Fs) (fuel : Nat) (srcs tgts : List Path) (p : Path)
    (h : hashRoots fs fuel DiscoveredFiles.empty srcs = .ioError p) :
    find_matching_files fs fuel srcs tgts = .ioError p := by
  unfold find_matching_files
  rw [h]

theorem find_matching_tgt_ioError (fs : Fs) (fuel : Nat) (srcs tgts : List Path)
    (sh : DiscoveredFiles) (p : Path)
    (h1 : hashRoots fs fuel DiscoveredFiles.empty srcs = .ok sh)
    (h2 : hashRoots fs fuel DiscoveredFiles.empty tgts = .ioError p) :
    find_matching_files fs fuel srcs tgts = .ioError p := by
  unfold find_matching_files
  rw [h1]
  show (match hashRoots fs fuel DiscoveredFiles.empty tgts with
    | Outcome.ok target_hashes => Outcome.ok (computeMatches sh target_hashes)
    | Outcome.ioError p => Outcome.ioError p
    | Outcome.panicked => Outcome.panicked
    | Outcome.outOfFuel => Outcome.outOfFuel) = Outcome.ioError p
  rw [h2]

/-! Section: Claims about error handling and the tree walker -/

/-- Claim C2, counterexample: a symlink-target read failure during traversal
makes `find_matching_files` abort by panic (`read_link(..).expect(..)`), which
is not an `ioError` return, contradicting the claim that every traversal I/O
failure surfaces as an I/O error. -/
theorem C2_counterexample :
    find_matching_files fsLinkErr 10 [] ["t"] = Outcome.panicked ∧
      ∀ p, (Outcome.panicked : Outcome (List MatchingFile)) ≠ .ioError p :=
  ⟨by decide, fun _ h => Outcome.noConfusion h⟩

/-- A target tree whose regular file fails to open/read. -/
def fsReadErr : Fs := ⟨[("t", .dir ["t/f"]), ("t/f", .file [97])], [], ["t/f"], []⟩

/-- A target tree whose root directory fails to enumerate. -/
def fsDirEnumErr : Fs := ⟨[("t", .dir ["t/f"]), ("t/f", .file [97])], [], ["t"], []⟩

/-- Claim C2 (amended): when no symlink-target read fails, every I/O failure
during directory enumeration, metadata retrieval, or file open/read causes
`find_matching_files` to return an I/O error naming the failing path and no
matches: the call never panics; every I/O error it returns names a genuinely
failing path; an error return carries no match list; a failing source or target
root aborts the whole call with that root's error regardless of the roots after
it; a root metadata failure, a failing enumeration of a root directory or of
any queued directory, and a failing entry metadata read or file read each
produce the failing path's I/O error at the point of failure and propagate it
unchanged through the directory scan, the walk loop, and the per-root loops. -/
theorem C2_amended (fs : Fs) (hle : fs.linkErr = []) :
    (∀ fuel srcs tgts, find_matching_files fs fuel srcs tgts ≠ Outcome.panicked) ∧
    (∀ fuel srcs tgts p, find_matching_files fs fuel srcs tgts = .ioError p →
        ioFailure fs p) ∧
    (∀ fuel srcs tgts p ms, find_matching_files fs fuel srcs tgts = .ioError p →
        find_matching_files fs fuel srcs tgts ≠ .ok ms) ∧
    (∀ fuel rs1 r rs2 tgts d p, hashRoots fs fuel DiscoveredFiles.empty rs1 = .ok d →
        find_and_hash_files fs fuel d r = .ioError p →
        find_matching_files fs fuel (rs1 ++ r :: rs2) tgts = .ioError p) ∧
    (∀ fuel srcs sh rs1 r rs2 d p, hashRoots fs fuel DiscoveredFiles.empty srcs = .ok sh →
        hashRoots fs fuel DiscoveredFiles.empty rs1 = .ok d →
        find_and_hash_files fs fuel d r = .ioError p →
        find_matching_files fs fuel srcs (rs1 ++ r :: rs2) = .ioError p) ∧
    (∀ fuel disc r, r ∈ fs.metaErr → find_and_hash_files fs fuel disc r = .ioError r) ∧
    (∀ fuel disc r es, fs.statNode r = some (.dir es) → r ∈ fs.readErr →
        find_and_hash_files fs (fuel + 1) disc r = .ioError r) ∧
    (∀ fuel disc d rest, d ∈ fs.readErr →
        walkLoop fs (fuel + 1) disc (d :: rest) = .ioError d) ∧
    (∀ st p, p ∈ fs.metaErr → procEntry fs st p = .ioError p) ∧
    (∀ st p c, p ∉ fs.metaErr → fs.lookup p = some (.file c) → hash_file fs p = none →
        procEntry fs st p = .ioError p) ∧
    (∀ st p t, p ∉ fs.metaErr → fs.lookup p = some (.symlink t) → hash_file fs p = none →
        procEntry fs st p = .ioError p) ∧
    (∀ es1 st st2 e es2 p, procEntries fs st es1 = .ok st2 →
        procEntry fs st2 e = .ioError p →
        procEntries fs st (es1 ++ e :: es2) = .ioError p) ∧
    (∀ fuel disc d rest es p, readDir fs d = some es →
        procEntries fs (disc, rest) es = .ioError p →
        walkLoop fs (fuel + 1) disc (d :: rest) = .ioError p) ∧
    (∀ fuel disc r es p, fs.statNode r = some (.dir es) →
        walkLoop fs fuel disc [r] = .ioError p →
        find_and_hash_files fs fuel disc r = .ioError p) := by
  refine ⟨?_, ?_, ?_, ?_, ?_, ?_, ?_, ?_, ?_, ?_, ?_, ?_, ?_, ?_⟩
  · intro fuel srcs tgts
    unfold find_matching_files
    cases h1 : hashRoots fs fuel DiscoveredFiles.empty srcs with
    | ok sh =>
      cases h2 : hashRoots fs fuel DiscoveredFiles.empty tgts with
      | ok th => simp
      | ioError p => simp
      | panicked =>
        exact absurd h2 (hashRoots_ne_panicked fs hle fuel tgts DiscoveredFiles.empty)
      | outOfFuel => simp
    | ioError p => simp
    | panicked =>
      exact absurd h1 (hashRoots_ne_panicked fs hle fuel srcs DiscoveredFiles.empty)
    | outOfFuel => simp
  · intro fuel srcs tgts p h
    exact find_matching_ioError_sound fs fuel srcs tgts p h
  · intro fuel srcs tgts p ms h1 h2
    rw [h1] at h2
    exact Outcome.noConfusion h2
  · intro fuel rs1 r rs2 tgts d p h1 h2
    exact find_matching_src_ioError fs fuel (rs1 ++ r :: rs2) tgts p
      (hashRoots_append_ioError fs fuel rs1 DiscoveredFiles.empty d r rs2 p h1 h2)
  · intro fuel srcs sh rs1 r rs2 d p h0 h1 h2
    exact find_matching_tgt_ioError fs fuel srcs (rs1 ++ r :: rs2) sh p h0
      (hashRoots_append_ioError fs fuel rs1 DiscoveredFiles.empty d r rs2 p h1 h2)
  · intro fuel disc r h
    exact find_and_hash_metaErr fs fuel disc r h
  · intro fuel disc r es h1 h2
    exact find_and_hash_dir_readErr fs fuel disc r es h1 h2
  · intro fuel disc d rest h
    exact walkLoop_readErr fs fuel disc d rest h
  · intro st p h
    exact procEntry_metaErr fs st p h
  · intro st p c h1 h2 h3
    exact procEntry_file_readErr fs st p c h1 h2 h3
  · intro st p t h1 h2 h3
    exact procEntry_symlink_readErr fs st p t h1 h2 h3
  · intro es1 st st2 e es2 p h1 h2
    exact procEntries_append_ioError fs es1 st st2 e es2 p h1 h2
  · intro fuel disc d rest es p h1 h2
    exact walkLoop_entries_ioError fs fuel disc d rest es p h1 h2
  · intro fuel disc r es p h1 h2
    exact find_and_hash_walk_ioError fs fuel disc r es p h1 h2

/-- Claim C2 witness: on concrete trees with one injected fault each, a file
read failure and a root metadata failure each abort the whole call with that
path's I/O error, a directory-enumeration failure surfaces as the directory's
I/O error, and a fault-free run never panics. -/
theorem C2_witness :
    find_matching_files fsBasic 10 ["s"] ["t"] ≠ Outcome.panicked ∧
      find_matching_files fsReadErr 10 ["t"] [] = .ioError "t/f" ∧
      find_and_hash_files ⟨[], ["x"], [], []⟩ 10 DiscoveredFiles.empty "x" = .ioError "x" ∧
      find_and_hash_files fsDirEnumErr 10 DiscoveredFiles.empty "t" = .ioError "t" :=
  ⟨(C2_amended fsBasic rfl).1 10 ["s"] ["t"],
   (C2_amended fsReadErr rfl).2.2.2.1 10 [] "t" [] [] DiscoveredFiles.empty "t/f"
     (by decide) (by decide),
   (C2_amended ⟨[], ["x"], [], []⟩ rfl).2.2.2.2.2.1 10 DiscoveredFiles.empty "x" (by decide),
   (C2_amended fsDirEnumErr rfl).2.2.2.2.2.2.1 9 DiscoveredFiles.empty "t" ["t/f"]
     (by decide) (by decide)⟩

/-- Claim C10: a root whose followed metadata is not a directory is hashed and
inserted as a `RegularFile` entry (`FileType.File`), even when the root is
itself a symlink; such an entry is not a `Symlink`, can never supply a symlink
`chosen_source`, and is a `RegularFile` candidate for `dest_path`. -/
theorem C10_nondir_root (fs : Fs) (fuel : Nat) (disc : DiscoveredFiles)
    (root : Path) (nd : Node) (h : Hash)
    (h₁ : fs.statNode root = some nd)
    (h₂ : isDirNode (some nd) = false)
    (h₃ : hash_file fs root = some h) :
    find_and_hash_files fs fuel disc root = .ok (addHash disc h (.File root)) ∧
      FileType.isSymlink (.File root) = false ∧
      FileType.isFile (.File root) = true ∧
      ∀ rest, findFirstSymlinkTarget (.File root :: rest) = findFirstSymlinkTarget rest := by
  refine ⟨?_, rfl, rfl, fun rest => rfl⟩
  unfold find_and_hash_files
  rw [h₁]
  cases nd with
  | dir es => simp [isDirNode] at h₂
  | file c => rw [h₃]
  | symlink t => rw [h₃]
  | other => rw [h₃]

/-- Claim C10 witness: a symlink given directly as a root is inserted as a
`RegularFile` entry with no recorded link target. -/
theorem C10_witness :
    find_and_hash_files fsLinkRoot 10 DiscoveredFiles.empty "r" =
        .ok (addHash DiscoveredFiles.empty
          "E3B0C44298FC1C149AFBF4C8996FB92427AE41E4649B934CA495991B7852B855"
          (.File "r")) ∧
      FileType.isSymlink (.File "r") = false ∧
      FileType.isFile (.File "r") = true ∧
      ∀ rest, findFirstSymlinkTarget (.File "r" :: rest) = findFirstSymlinkTarget rest :=
  C10_nondir_root fsLinkRoot 10 DiscoveredFiles.empty "r" (.file [])
    "E3B0C44298FC1C149AFBF4C8996FB92427AE41E4649B934CA495991B7852B855"
    (by decide) (by decide) (by decide)

/-- Claim C8: `hash_file` on an (empty-content) file — reached directly or
through a symlink chain — returns the fixed SHA-256 digest of the empty byte
sequence, and any two readable paths whose resolved contents are byte-identical
hash to the same digest. -/
theorem C8_hash_file (fs : Fs) :
    (∀ p q, p ∉ fs.readErr → fs.resolveP p = some q → q ∉ fs.readErr →
        fs.lookup q = some (.file []) →
        hash_file fs p =
          some "E3B0C44298FC1C149AFBF4C8996FB92427AE41E4649B934CA495991B7852B855") ∧
      (∀ p₁ q₁ p₂ q₂ c,
        p₁ ∉ fs.readErr → fs.resolveP p₁ = some q₁ → q₁ ∉ fs.readErr →
          fs.lookup q₁ = some (.file c) →
        p₂ ∉ fs.readErr → fs.resolveP p₂ = some q₂ → q₂ ∉ fs.readErr →
          fs.lookup q₂ = some (.file c) →
        hash_file fs p₁ = hash_file fs p₂) := by
  constructor
  · intro p q h1 h2 h3 h4
    simp only [hash_file, if_neg h1, h2, if_neg h3, h4]
    have hdig : toHexUpper (sha256 (readAll [])) =
        "E3B0C44298FC1C149AFBF4C8996FB92427AE41E4649B934CA495991B7852B855" := by decide
    rw [hdig]
  · intro p₁ q₁ p₂ q₂ c h1 h2 h3 h4 h5 h6 h7 h8
    simp only [hash_file, if_neg h1, h2, if_neg h3, h4, if_neg h5, h6, if_neg h7, h8]

/-- Claim C8 witness: the empty-file digest through a symlink root, and two
distinct paths with identical one-byte content hashing identically. -/
theorem C8_witness :
    hash_file fsLinkRoot "r" =
        some "E3B0C44298FC1C149AFBF4C8996FB92427AE41E4649B934CA495991B7852B855" ∧
      hash_file fsBasic "s/file1" = hash_file fsBasic "t/file1" :=
  ⟨(C8_hash_file fsLinkRoot).1 "r" "f" (by decide) (by decide) (by decide) (by decide),
   (C8_hash_file fsBasic).2 "s/file1" "s/file1" "t/file1" "t/file1" [99]
     (by decide) (by decide) (by decide) (by decide)
     (by decide) (by decide) (by decide) (by decide)⟩

/-! Section: Flat-root traversal: the walker over a directory with no subdirectories
is a left fold over its entries -/

def withQueue (q : List Path) : Outcome DiscoveredFiles → Outcome (DiscoveredFiles × List Path)
  | .ok d => .ok (d, q)
  | .ioError p => .ioError p
  | .panicked => .panicked
  | .outOfFuel => .outOfFuel

/-- `procEntry` restricted to non-directory entries (no queue interaction). -/
def flatStep (fs : Fs) (disc : DiscoveredFiles) (p : Path) : Outcome DiscoveredFiles :=
  if p ∈ fs.metaErr then .ioError p
  else
    match fs.lookup p with
    | none => .ioError p
    | some (.dir _) => .ok disc
    | some (.file _) =>
      match hash_file fs p with
      | some h => .ok (addHash disc h (.File p))
      | none => .ioError p
    | some (.symlink t) =>
      match hash_file fs p with
      | some h =>
        if p ∈ fs.linkErr then .panicked else .ok (addHash disc h (.Symlink p t))
      | none => .ioError p
    | some .other => .ok disc

/-- Fold `flatStep` over an entry list, propagating the first failure. -/
def flatRun (fs : Fs) : DiscoveredFiles → List Path → Outcome DiscoveredFiles
  | disc, [] => .ok disc
  | disc, e :: es =>
    match flatStep fs disc e with
    | .ok d2 => flatRun fs d2 es
    | .ioError p => .ioError p
    | .panicked => .panicked
    | .outOfFuel => .outOfFuel

theorem procEntry_flat (fs : Fs) (disc : DiscoveredFiles) (q : List Path) (e : Path)
    (hnd : isDirNode (fs.lookup e) = false) :
    procEntry fs (disc, q) e = withQueue q (flatStep fs disc e) := by
  unfold procEntry flatStep
  by_cases hm : e ∈ fs.metaErr
  · simp [hm, withQueue]
  · simp only [if_neg hm]
    cases hlk : fs.lookup e with
    | none => simp [withQueue]
    | some n =>
      cases n with
      | dir es => rw [hlk] at hnd; simp [isDirNode] at hnd
      | file c => cases hh : hash_file fs e <;> simp [withQueue]
      | symlink t =>
        cases hh : hash_file fs e with
        | none => simp [withQueue]
        | some hv => by_cases hl : e ∈ fs.linkErr <;> simp [hl, withQueue]
      | other => simp [withQueue]

theorem procEntries_flat (fs : Fs) :
    ∀ (es : List Path) (disc : DiscoveredFiles) (q : List Path),
      (∀ e ∈ es, isDirNode (fs.lookup e) = false) →
      procEntries fs (disc, q) es = withQueue q (flatRun fs disc es) := by
  intro es
  induction es with
  | nil => intro disc q _; rfl
  | cons e es ih =>
    intro disc q hflat
    unfold procEntries flatRun
    rw [procEntry_flat fs disc q e (hflat e (List.mem_cons_self e es))]
    cases hfs : flatStep fs disc e with
    | ok d2 =>
      simp only [withQueue]
      exact ih d2 q (fun x hx => hflat x (List.mem_cons_of_mem e hx))
    | ioError p => simp [withQueue]
    | panicked => simp [withQueue]
    | outOfFuel => simp [withQueue]

theorem flatRun_cons (fs : Fs) (disc : DiscoveredFiles) (e : Path) (es : List Path) :
    flatRun fs disc (e :: es) =
      match flatStep fs disc e with
      | .ok d2 => flatRun fs d2 es
      | .ioError p => .ioError p
      | .panicked => .panicked
      | .outOfFuel => .outOfFuel := rfl

theorem flatRun_append (fs : Fs) :
    ∀ (es1 : List Path) (disc : DiscoveredFiles) (es2 : List Path),
      flatRun fs disc (es1 ++ es2) =
        match flatRun fs disc es1 with
        | .ok d2 => flatRun fs d2 es2
        | .ioError p => .ioError p
        | .panicked => .panicked
        | .outOfFuel => .outOfFuel := by
  intro es1
  induction es1 with
  | nil => intro disc es2; rfl
  | cons e es ih =>
    intro disc es2
    simp only [List.cons_append]
    rw [flatRun_cons fs disc e (es ++ es2), flatRun_cons fs disc e es]
    cases hfs : flatStep fs disc e with
    | ok d2 => exact ih d2 es2
    | ioError p => rfl
    | panicked => rfl
    | outOfFuel => rfl

/-- Traversing a flat directory root is exactly a left fold over its entries,
for any fuel at least two. -/
theorem find_and_hash_flat (fs : Fs) (r : Path) (es : List Path) (hf : FlatRoot fs r es)
    (n : Nat) (disc : DiscoveredFiles) :
    find_and_hash_files fs (n + 2) disc r = flatRun fs disc es := by
  obtain ⟨hm, hr, hlk, hnd⟩ := hf
  have hres : fs.resolveP r = some r := by
    simp [Fs.resolveP, Fs.resolveAux, hlk]
  have hstat : fs.statNode r = some (.dir es) := by
    simp [Fs.statNode, hm, hres, hlk]
  have hrd : readDir fs r = some es := by
    simp [readDir, hr, hres, hlk]
  unfold find_and_hash_files
  rw [hstat]
  show walkLoop fs ((n + 1) + 1) disc [r] = _
  rw [walkLoop_succ_cons, hrd]
  show (match procEntries fs (disc, []) es with
    | Outcome.ok st2 => walkLoop fs (n + 1) st2.1 st2.2
    | Outcome.ioError p => Outcome.ioError p
    | Outcome.panicked => Outcome.panicked
    | Outcome.outOfFuel => Outcome.outOfFuel) = flatRun fs disc es
  rw [procEntries_flat fs es disc [] hnd]
  cases hfr : flatRun fs disc es with
  | ok d2 => simp only [withQueue]; exact walkLoop_succ_nil fs n d2
  | ioError p => simp [withQueue]
  | panicked => simp [withQueue]
  | outOfFuel => simp [withQueue]

theorem hashRoots_flat_one (fs : Fs) (c : Path) (es : List Path)
    (h1 : FlatRoot fs c es) (n : Nat) (disc : DiscoveredFiles) :
    hashRoots fs (n + 2) disc [c] = flatRun fs disc es := by
  rw [hashRoots_cons, find_and_hash_flat fs c es h1 n disc]
  cases hf : flatRun fs disc es with
  | ok d2 => rfl
  | ioError p => rfl
  | panicked => rfl
  | outOfFuel => rfl

theorem hashRoots_flat_two (fs : Fs) (r1 r2 : Path) (es1 es2 : List Path)
    (h1 : FlatRoot fs r1 es1) (h2 : FlatRoot fs r2 es2) (n : Nat)
    (disc : DiscoveredFiles) :
    hashRoots fs (n + 2) disc [r1, r2] = flatRun fs disc (es1 ++ es2) := by
  rw [flatRun_append]
  rw [hashRoots_cons, find_and_hash_flat fs r1 es1 h1 n disc]
  cases hf1 : flatRun fs disc es1 with
  | ok d2 => exact hashRoots_flat_one fs r2 es2 h2 n d2
  | ioError p => rfl
  | panicked => rfl
  | outOfFuel => rfl

/-! Section: Claim C9 -/

set_option maxRecDepth 8000 in
/-- Claim C9, counterexample: two source roots with pairwise disjoint files
(one of them holding its file in a subdirectory) and the combined source root
holding the same files produce different `(src_path, dest_path)` pair sets:
queue-order changes the order of same-hash source entries, and with it the
chosen source. -/
theorem C9_counterexample :
    find_matching_files fsNested 10 ["r1", "r2"] ["t"] = .ok [⟨"s1/a", "t/d"⟩] ∧
      find_matching_files fsNested 10 ["c"] ["t"] = .ok [⟨"r2/b", "t/d"⟩] ∧
      (⟨"s1/a", "t/d"⟩ : MatchingFile) ∉ [(⟨"r2/b", "t/d"⟩ : MatchingFile)] :=
  ⟨by decide, by decide, by decide⟩

/-- Claim C9 (amended): for flat roots — directories none of whose entries are
themselves directories — matching across two source roots and two target roots
produces exactly the same matches as matching within single combined source and
target roots holding the same files, for any sufficient fuel on either side. -/
theorem C9_amended (fs : Fs) (r1 r2 c u1 u2 uc : Path)
    (es1 es2 ts1 ts2 : List Path)
    (hr1 : FlatRoot fs r1 es1) (hr2 : FlatRoot fs r2 es2)
    (hc : FlatRoot fs c (es1 ++ es2))
    (hu1 : FlatRoot fs u1 ts1) (hu2 : FlatRoot fs u2 ts2)
    (huc : FlatRoot fs uc (ts1 ++ ts2))
    (m n : Nat) :
    find_matching_files fs (m + 2) [r1, r2] [u1, u2] =
      find_matching_files fs (n + 2) [c] [uc] := by
  unfold find_matching_files
  rw [hashRoots_flat_two fs r1 r2 es1 es2 hr1 hr2 m DiscoveredFiles.empty,
      hashRoots_flat_one fs c (es1 ++ es2) hc n DiscoveredFiles.empty]
  cases hs : flatRun fs DiscoveredFiles.empty (es1 ++ es2) with
  | ok sh =>
    rw [hashRoots_flat_two fs u1 u2 ts1 ts2 hu1 hu2 m DiscoveredFiles.empty,
        hashRoots_flat_one fs uc (ts1 ++ ts2) huc n DiscoveredFiles.empty]
  | ioError p => rfl
  | panicked => rfl
  | outOfFuel => rfl

/-- A flat two-source/two-target configuration and its combined roots. -/
def fsFlat : Fs :=
  ⟨[("r1", .dir ["r1/a"]), ("r1/a", .file [120]),
    ("r2", .dir ["r2/b"]), ("r2/b", .file [121]),
    ("c", .dir ["r1/a", "r2/b"]),
    ("u1", .dir ["u1/d1"]), ("u1/d1", .file [120]),
    ("u2", .dir ["u2/d2"]), ("u2/d2", .file [121]),
    ("uc", .dir ["u1/d1", "u2/d2"])], [], [], []⟩

/-- Claim C9 witness: the amended statement at a concrete flat configuration,
with different fuels on the two sides. -/
theorem C9_witness :
    find_matching_files fsFlat 3 ["r1", "r2"] ["u1", "u2"] =
      find_matching_files fsFlat 4 ["c"] ["uc"] :=
  C9_amended fsFlat "r1" "r2" "c" "u1" "u2" "uc" ["r1/a"] ["r2/b"] ["u1/d1"] ["u2/d2"]
    (by decide) (by decide) (by decide) (by decide) (by decide) (by decide) 1 2

end Undup
